import Mathlib

/-!
Verification of the job-tracker backend (`src/backend/main.py`) against its
natural-language specification.  The FastAPI handlers and the MongoDB
collection they operate on are shallowly embedded: the collection is a
`List Doc`, each handler is a pure function from its request data and the
current collection to a result (`Except Err _`) and the resulting
collection, and MongoDB operators (`find` filters, `sort`, `skip`/`limit`,
`$set`, `$group`, `$regex`) are modelled by the corresponding pure list
operations.
-/

namespace JobTracker

/-- A field of a BSON document: the key may be absent (`missing`), present
with a null value (`dnull`), or present with a value (`dval`).  Python's
`job["k"]` fails on `missing`; `job.get("k")` returns `None` on both
`missing` and `dnull`. -/
inductive DField (α : Type) where
  | missing : DField α
  | dnull : DField α
  | dval : α → DField α
deriving DecidableEq, Repr

namespace DField

/-- Python bracket access `job["k"]`: fails (KeyError) when the key is
absent, otherwise returns the (possibly null) value. -/
def bracket : DField α → Option (Option α)
  | .missing => none
  | .dnull => some none
  | .dval a => some (some a)

/-- Python `job.get("k")`: `None` when the key is absent or its value is
null, the value otherwise. -/
def getOpt : DField α → Option α
  | .missing => none
  | .dnull => none
  | .dval a => some a

end DField

/-- A stored job document.  `_id` is the store-assigned identifier,
rendered as its canonical (lowercase hexadecimal) string form; timestamps
are modelled as naturals. -/
structure Doc where
  _id : String
  title : DField String
  company : DField String
  url : DField String
  platform : DField String
  location : DField String
  description : DField String
  status : DField String
  notes : DField String
  date_saved : DField Nat
deriving DecidableEq, Repr

/-- Rendering of a `datetime` as its ISO-8601 string (`dt.isoformat()`);
modelled abstractly as an injective rendering of the timestamp. -/
def isoformat (t : Nat) : String := "1970-01-01T00:00:" ++ toString t

/-- The external response shape (`JobResponse`). -/
structure Resp where
  id : String
  title : Option String
  company : Option String
  location : Option String
  url : Option String
  platform : Option String
  description : Option String
  status : Option String
  notes : Option String
  date_saved : Option String
deriving DecidableEq, Repr

/-- An HTTP error (`HTTPException`): status code and detail message. -/
structure Err where
  code : Nat
  detail : String
deriving DecidableEq, Repr

/-- `job_helper`: formats a stored document into the response dict.
`title`, `company`, `url`, `platform`, `status` are read with bracket
access (KeyError — modelled as `none` — if the key is absent); `location`,
`description`, `notes` with `.get`; `date_saved` is rendered as ISO-8601
when present and non-null, else `None`. -/
def job_helper (job : Doc) : Option Resp := do
  let title ← job.title.bracket
  let company ← job.company.bracket
  let url ← job.url.bracket
  let platform ← job.platform.bracket
  let status ← job.status.bracket
  pure {
    id := job._id
    title := title
    company := company
    location := job.location.getOpt
    url := url
    platform := platform
    description := job.description.getOpt
    status := status
    notes := job.notes.getOpt
    date_saved := (job.date_saved.getOpt).map isoformat }

/-- Is `c` a hexadecimal digit? -/
def isHexDigit (c : Char) : Bool :=
  (('0' ≤ c) && (c ≤ '9')) || (('a' ≤ c) && (c ≤ 'f')) || (('A' ≤ c) && (c ≤ 'F'))

/-- `ObjectId.is_valid` for string input: a 24-character hexadecimal
string. -/
def objectIdIsValid (s : String) : Bool :=
  s.length == 24 && s.toList.all isHexDigit

/-- Wire shape of a create request (`JobCreate`): every field optional
except `status`, which defaults to `"saved"`. -/
structure JobCreate where
  title : Option String := none
  company : Option String := none
  url : Option String := none
  platform : Option String := none
  location : Option String := none
  description : Option String := none
  status : String := "saved"
  notes : Option String := none
deriving DecidableEq, Repr

/-- Python `None` becomes a present-but-null BSON value on insert. -/
def ofOpt : Option α → DField α
  | none => .dnull
  | some a => .dval a

/-- The document inserted by `create_job`: `job.dict()` (every key
present, optional fields possibly null) with `date_saved` overwritten by
the current server time and `_id` assigned by the store. -/
def toDoc (newId : String) (now : Nat) (job : JobCreate) : Doc where
  _id := newId
  title := ofOpt job.title
  company := ofOpt job.company
  url := ofOpt job.url
  platform := ofOpt job.platform
  location := ofOpt job.location
  description := ofOpt job.description
  status := .dval job.status
  notes := ofOpt job.notes
  date_saved := .dval now

/-- MongoDB equality query `{"url": v}` against a stored field: querying
for `null` matches documents whose field is null or absent; querying for a
string matches exactly that string value. -/
def urlQueryMatch (q : Option String) (f : DField String) : Bool :=
  match q, f with
  | none, .missing => true
  | none, .dnull => true
  | none, .dval _ => false
  | some s, .dval t => s == t
  | some _, .missing => false
  | some _, .dnull => false

/-- `POST /api/jobs/` (`create_job`): reject when some stored document
matches `{"url": job.url}` (400 "Job already exists", no insert);
otherwise stamp `date_saved`, insert, re-fetch by the new identifier and
format it.  `newId` is the store-assigned identifier, `now` the server
clock.  Returns the handler result together with the resulting
collection. -/
def create_job (newId : String) (now : Nat) (job : JobCreate)
    (store : List Doc) : Except Err Resp × List Doc :=
  if store.any (fun d => urlQueryMatch job.url d.url) then
    (.error ⟨400, "Job already exists"⟩, store)
  else
    let d := toDoc newId now job
    let store' := store ++ [d]
    match store'.find? (fun x => x._id == newId) with
    | some nd =>
      match job_helper nd with
      | some r => (.ok r, store')
      | none => (.error ⟨500, "KeyError"⟩, store')
    | none => (.error ⟨500, "NoneType"⟩, store')

/-- Lowercase a string (characterwise). -/
def strLower (s : String) : String := ⟨s.data.map Char.toLower⟩

/-- `GET /api/jobs/{job_id}` (`get_job`): invalid identifier format is
400; a valid identifier with no matching document is 404; otherwise the
formatted document.  `ObjectId(job_id)` normalises the hex digits to the
canonical lowercase form used by stored identifiers. -/
def get_job (jid : String) (store : List Doc) : Except Err Resp :=
  if !objectIdIsValid jid then .error ⟨400, "Invalid job ID format"⟩
  else
    match store.find? (fun d => d._id == strLower jid) with
    | none => .error ⟨404, "Job not found"⟩
    | some d =>
      match job_helper d with
      | some r => .ok r
      | none => .error ⟨500, "KeyError"⟩

/-- Wire shape of an update request (`JobUpdate`): only `title`,
`company`, `location`, `status`, `notes` exist on the model; each is
individually optional.  (Pydantic length bounds are enforced before the
handler runs and do not affect the properties below.) -/
structure JobUpdate where
  title : Option String := none
  company : Option String := none
  location : Option String := none
  status : Option String := none
  notes : Option String := none
deriving DecidableEq, Repr

/-- `{k: v for k, v in job_update.dict().items() if v is not None}` is
empty: every supplied field is absent/None. -/
def isEmptyUpdate (u : JobUpdate) : Bool :=
  u.title.isNone && u.company.isNone && u.location.isNone &&
  u.status.isNone && u.notes.isNone

/-- MongoDB `$set` with the non-None fields of the update: each present
field's key is set to that string value, every other field of the
document is untouched. -/
def applySet (u : JobUpdate) (d : Doc) : Doc :=
  { d with
    title := match u.title with | some t => .dval t | none => d.title
    company := match u.company with | some c => .dval c | none => d.company
    location := match u.location with | some l => .dval l | none => d.location
    status := match u.status with | some s => .dval s | none => d.status
    notes := match u.notes with | some n => .dval n | none => d.notes }

/-- MongoDB `update_one`: modify the first document matching the filter
(in the real store `_id` is unique, so at most one matches). -/
def updateFirst (p : Doc → Bool) (f : Doc → Doc) : List Doc → List Doc
  | [] => []
  | d :: ds => if p d then f d :: ds else d :: updateFirst p f ds

/-- `PUT /api/jobs/{job_id}` (`update_job`): invalid identifier format is
400 "Invalid job ID format"; then an empty effective update set is 400
"No valid fields to update"; then `update_one` with `$set`, 404 when it
matched nothing; on success re-fetch and format. -/
def update_job (jid : String) (u : JobUpdate) (store : List Doc) :
    Except Err Resp × List Doc :=
  if !objectIdIsValid jid then (.error ⟨400, "Invalid job ID format"⟩, store)
  else if isEmptyUpdate u then (.error ⟨400, "No valid fields to update"⟩, store)
  else if store.any (fun d => d._id == strLower jid) then
    let store' := updateFirst (fun d => d._id == strLower jid) (applySet u) store
    match store'.find? (fun d => d._id == strLower jid) with
    | some d =>
      match job_helper d with
      | some r => (.ok r, store')
      | none => (.error ⟨500, "KeyError"⟩, store')
    | none => (.error ⟨500, "NoneType"⟩, store')
  else (.error ⟨404, "Job not found"⟩, store)

/-- Sort key for `date_saved`: a missing or null timestamp sorts below
every real one (MongoDB orders null/missing before numbers, hence last in
a descending sort). -/
def dateKey : DField Nat → Nat
  | .dval n => n + 1
  | .dnull => 0
  | .missing => 0

/-- "`a` may come before `b`" in a `date_saved`-descending order. -/
def dateGE (a b : Doc) : Prop := dateKey b.date_saved ≤ dateKey a.date_saved

instance : DecidableRel dateGE := fun a b =>
  inferInstanceAs (Decidable (dateKey b.date_saved ≤ dateKey a.date_saved))

instance : IsTotal Doc dateGE :=
  ⟨fun a b => (le_total (dateKey b.date_saved) (dateKey a.date_saved)).imp id id⟩

instance : IsTrans Doc dateGE :=
  ⟨fun _ _ _ h1 h2 => le_trans h2 h1⟩

/-- `.sort("date_saved", -1)`: the matching documents ordered newest
first. -/
def sortByDateDesc (l : List Doc) : List Doc := l.insertionSort dateGE

/-- The truthiness test `if status:` / `if platform:` of `get_jobs`: the
filter key is added only when the parameter is supplied and non-empty. -/
def effFilter : Option String → Option String
  | none => none
  | some s => if s = "" then none else some s

/-- Does a stored field satisfy an equality filter entry `{key: s}` for a
(non-empty) string `s`? -/
def fieldEq (s : String) (f : DField String) : Bool :=
  match f with
  | .dval t => s == t
  | .dnull => false
  | .missing => false

/-- The filter document built by `get_jobs`, applied to one document. -/
def listFilterMatch (status platform : Option String) (d : Doc) : Bool :=
  (match effFilter status with
   | none => true
   | some s => fieldEq s d.status) &&
  (match effFilter platform with
   | none => true
   | some s => fieldEq s d.platform)

/-- `GET /api/jobs/` (`get_jobs`): filter by whichever of
`status`/`platform` are (truthily) supplied, sort by `date_saved`
descending, then `.skip(skip).limit(limit)`.  Returned at the document
level; the handler maps `job_helper` over this list. -/
def get_jobs (status platform : Option String) (limit skip : Nat)
    (store : List Doc) : List Doc :=
  ((sortByDateDesc (store.filter (listFilterMatch status platform))).drop skip).take limit

/-- Does the pattern match a prefix of the string?  Models the
case-insensitive (`$options: "i"`) regular-expression engine behind
MongoDB's `$regex` on the pattern fragment in which `.` (match any one
character) is the only metacharacter and every other character is a
literal; the theorems below instantiate it only within this fragment. -/
def patMatchHead : List Char → List Char → Bool
  | [], _ => true
  | _ :: _, [] => false
  | p :: ps, c :: cs => (p == '.' || p.toLower == c.toLower) && patMatchHead ps cs

/-- Unanchored regex search: does the pattern match starting at some
position of the string? -/
def patFound (pat : List Char) : List Char → Bool
  | [] => patMatchHead pat []
  | c :: cs => patMatchHead pat (c :: cs) || patFound pat cs

/-- Case-insensitive prefix test with every character literal. -/
def ciMatchHead : List Char → List Char → Bool
  | [], _ => true
  | _ :: _, [] => false
  | q :: qs, c :: cs => q.toLower == c.toLower && ciMatchHead qs cs

/-- Case-insensitive substring containment (plain literal semantics). -/
def ciContains (q : List Char) : List Char → Bool
  | [] => ciMatchHead q []
  | c :: cs => ciMatchHead q (c :: cs) || ciContains q cs

/-- Characters with a special meaning in a regular-expression pattern. -/
def regexMetachars : List Char :=
  ['.', '*', '+', '?', '(', ')', '[', ']', '^', '$', '|', '\\',
   Char.ofNat 123, Char.ofNat 125]

/-- One `{"field": {"$regex": query, "$options": "i"}}` clause: matches
only documents whose field holds a string value the pattern is found
in. -/
def regexClause (query : String) (f : DField String) : Bool :=
  match f with
  | .dval s => patFound query.toList s.toList
  | .dnull => false
  | .missing => false

/-- The `$or` search filter of `search_jobs`, applied to one document. -/
def searchFilterMatch (query : String) (d : Doc) : Bool :=
  regexClause query d.title || regexClause query d.company

/-- Literal-substring counterpart of `searchFilterMatch`, following the
specification's words ("case-insensitive substring match against `title`
OR `company`"), for comparison with the code's regex semantics. -/
def substrFilterMatch (query : String) (d : Doc) : Bool :=
  (match d.title with
   | .dval s => ciContains query.toList s.toList
   | _ => false) ||
  (match d.company with
   | .dval s => ciContains query.toList s.toList
   | _ => false)

/-- `GET /api/jobs/search/{query}` (`search_jobs`): `$regex` filter on
`title` or `company` with option `"i"`, sorted by `date_saved`
descending, truncated to `limit` (default 20).  Returned at the document
level; the handler maps `job_helper` over this list. -/
def search_jobs (query : String) (limit : Nat) (store : List Doc) : List Doc :=
  (sortByDateDesc (store.filter (searchFilterMatch query))).take limit

/-- The `$group` key `"$status"` of a document: a missing or null status
groups under the null key. -/
def statusKey (d : Doc) : Option String := d.status.getOpt

/-- The `$group` key `"$platform"` of a document. -/
def platformKey (d : Doc) : Option String := d.platform.getOpt

/-- The status-breakdown aggregation: one entry per distinct `"$status"`
group key, counting the documents in that group. -/
def statusBreakdown (store : List Doc) : List (Option String × Nat) :=
  (store.map statusKey).dedup.map (fun k => (k, (store.map statusKey).count k))

/-- The platform-breakdown aggregation (`get_platform_stats`). -/
def get_platform_stats (store : List Doc) : List (Option String × Nat) :=
  (store.map platformKey).dedup.map (fun k => (k, (store.map platformKey).count k))

/-- The summary response shape. -/
structure Summary where
  total_jobs : Nat
  status_breakdown : List (Option String × Nat)
  platforms : List (Option String × Nat)
deriving DecidableEq, Repr

/-- `GET /api/jobs/stats/summary` (`get_jobs_summary`): group-by-status
counts, `count_documents({})`, and the platform breakdown. -/
def get_jobs_summary (store : List Doc) : Summary where
  total_jobs := store.length
  status_breakdown := statusBreakdown store
  platforms := get_platform_stats store

/-! ## Helper lemmas and sample data -/

/-- A well-formed stored document, as produced by the create handler. -/
def sampleDoc : Doc where
  _id := "aaaaaaaaaaaaaaaaaaaaaaaa"
  title := .dval "ab"
  company := .dval "cd"
  url := .dval "u1"
  platform := .dval "p1"
  location := .dnull
  description := .missing
  status := .dval "saved"
  notes := .dnull
  date_saved := .dval 5

/-- The `BEq` instance the group-count definitions elaborate with agrees
with the one `Mathlib`'s counting lemmas are stated over. -/
theorem count_beq_bridge (k : Option String) (l : List (Option String)) :
    @List.count _ Option.instBEq k l = @List.count _ instBEqOfDecidableEq k l := by
  show List.countP (fun x => @BEq.beq _ Option.instBEq x k) l
      = List.countP (fun x => @BEq.beq _ instBEqOfDecidableEq x k) l
  apply List.countP_congr
  intro a _
  have h1 : (@BEq.beq _ Option.instBEq a k) = decide (a = k) := by
    cases h : @BEq.beq _ Option.instBEq a k with
    | false =>
      have hne : a ≠ k := fun he => by
        subst he
        rw [@beq_self_eq_true (Option String) Option.instBEq _ a] at h
        exact absurd h (by simp)
      simp [hne]
    | true =>
      have heq : a = k := @eq_of_beq (Option String) Option.instBEq _ a k h
      simp [heq]
  have h2 : (@BEq.beq _ instBEqOfDecidableEq a k) = decide (a = k) := rfl
  rw [h1, h2]

theorem DField.bracket_of_ne_missing {α : Type} {f : DField α} (h : f ≠ .missing) :
    f.bracket = some f.getOpt := by
  cases f with
  | missing => exact absurd rfl h
  | dnull => rfl
  | dval a => rfl

/-! ## Claims -/

/-- C1: for every create request whose `url` equals the `url` of some
record already in the store, `create_job` fails with 400 "Job already
exists" and the collection is unchanged (no insert). -/
theorem create_job_duplicate_url_conflict (newId : String) (now : Nat)
    (job : JobCreate) (store : List Doc)
    (h : ∃ d ∈ store, d.url.getOpt = job.url) :
    create_job newId now job store = (.error ⟨400, "Job already exists"⟩, store) := by
  obtain ⟨d, hd, hu⟩ := h
  have hany : store.any (fun d => urlQueryMatch job.url d.url) = true := by
    refine List.any_eq_true.mpr ⟨d, hd, ?_⟩
    cases hf : d.url with
    | missing =>
        rw [hf] at hu
        simp only [DField.getOpt] at hu
        rw [← hu]
        rfl
    | dnull =>
        rw [hf] at hu
        simp only [DField.getOpt] at hu
        rw [← hu]
        rfl
    | dval s =>
        rw [hf] at hu
        simp only [DField.getOpt] at hu
        rw [← hu]
        simp [urlQueryMatch]
  simp [create_job, hany]

/-- Witness for C1: a duplicate-url create against a one-record store is
rejected with the conflict error and leaves the store intact. -/
theorem create_job_duplicate_url_conflict_witness :
    create_job "bbbbbbbbbbbbbbbbbbbbbbbb" 7 { url := some "u1" } [sampleDoc]
      = (.error ⟨400, "Job already exists"⟩, [sampleDoc]) :=
  create_job_duplicate_url_conflict "bbbbbbbbbbbbbbbbbbbbbbbb" 7
    { url := some "u1" } [sampleDoc]
    ⟨sampleDoc, List.mem_singleton.mpr rfl, by decide⟩

/-- C3 counterexample: a stored document missing the optional `title` key
makes `job_helper` fail (a `KeyError`, modelled as `none`) instead of
defaulting the field to null, so `job_helper` is not total on documents
with missing optional fields. -/
theorem job_helper_missing_key_counterexample :
    job_helper { sampleDoc with title := .missing } = none := rfl

/-- C3 amended: `job_helper` totally produces the external shape —
identifier as a plain string, `date_saved` as ISO-8601 or null, and
`location`/`description`/`notes` defaulted to null when missing —
provided the keys `title`, `company`, `url`, `platform` and `status` are
present (their values may be null); a document missing one of those keys
causes a lookup failure instead. -/
theorem job_helper_response_shape (d : Doc)
    (ht : d.title ≠ .missing) (hc : d.company ≠ .missing) (hu : d.url ≠ .missing)
    (hp : d.platform ≠ .missing) (hs : d.status ≠ .missing) :
    job_helper d = some {
      id := d._id
      title := d.title.getOpt
      company := d.company.getOpt
      location := d.location.getOpt
      url := d.url.getOpt
      platform := d.platform.getOpt
      description := d.description.getOpt
      status := d.status.getOpt
      notes := d.notes.getOpt
      date_saved := d.date_saved.getOpt.map isoformat } := by
  simp [job_helper, DField.bracket_of_ne_missing ht, DField.bracket_of_ne_missing hc,
    DField.bracket_of_ne_missing hu, DField.bracket_of_ne_missing hp,
    DField.bracket_of_ne_missing hs]

/-- Witness for C3's amended theorem at a concrete well-formed document. -/
theorem job_helper_response_shape_witness :
    job_helper sampleDoc = some {
      id := sampleDoc._id
      title := sampleDoc.title.getOpt
      company := sampleDoc.company.getOpt
      location := sampleDoc.location.getOpt
      url := sampleDoc.url.getOpt
      platform := sampleDoc.platform.getOpt
      description := sampleDoc.description.getOpt
      status := sampleDoc.status.getOpt
      notes := sampleDoc.notes.getOpt
      date_saved := sampleDoc.date_saved.getOpt.map isoformat } :=
  job_helper_response_shape sampleDoc (by decide) (by decide) (by decide)
    (by decide) (by decide)

/-- C8: the summary's `total_jobs` equals the sum of all counts in its
`status_breakdown`; every document is counted under exactly one group
key. -/
theorem summary_total_eq_breakdown_sum (store : List Doc) :
    (get_jobs_summary store).total_jobs
      = ((get_jobs_summary store).status_breakdown.map Prod.snd).sum := by
  have h := List.sum_map_count_dedup_eq_length (store.map statusKey)
  rw [List.length_map] at h
  simp only [get_jobs_summary, statusBreakdown, List.map_map, Function.comp_def,
    count_beq_bridge]
  exact h.symm

/-- C10: a `status` (or `platform`) filter supplied as the empty string
is treated by `get_jobs` exactly as an absent filter. -/
theorem get_jobs_empty_string_filter_ignored (status platform : Option String)
    (limit skip : Nat) (store : List Doc) :
    get_jobs (some "") platform limit skip store
        = get_jobs none platform limit skip store
    ∧ get_jobs status (some "") limit skip store
        = get_jobs status none limit skip store := by
  constructor
  · have hf : listFilterMatch (some "") platform = listFilterMatch none platform := by
      funext d
      simp [listFilterMatch, effFilter]
    rw [get_jobs, get_jobs, hf]
  · have hf : listFilterMatch status (some "") = listFilterMatch status none := by
      funext d
      simp [listFilterMatch, effFilter]
    rw [get_jobs, get_jobs, hf]

/-- C5 counterexample: the handler validates the identifier before
looking at the update set, so an empty update with an invalid identifier
fails with 400 "Invalid job ID format", not with the claimed 400
"No valid fields to update". -/
theorem update_job_empty_set_counterexample :
    isEmptyUpdate {} = true
    ∧ (update_job "zz" {} []).1 = .error ⟨400, "Invalid job ID format"⟩
    ∧ (⟨400, "Invalid job ID format"⟩ : Err) ≠ ⟨400, "No valid fields to update"⟩ :=
  ⟨rfl, rfl, by decide⟩

/-- C5 amended: for a request with a VALID identifier format, an empty
effective update set fails with 400 "No valid fields to update" before
any store write, leaving the collection unchanged; with a valid
identifier, a non-empty effective set and no matching record it fails
with 404 "Job not found", collection unchanged. -/
theorem update_job_error_paths (jid : String) (u : JobUpdate) (store : List Doc) :
    (objectIdIsValid jid = true → isEmptyUpdate u = true →
      update_job jid u store = (.error ⟨400, "No valid fields to update"⟩, store))
    ∧ (objectIdIsValid jid = true → isEmptyUpdate u = false →
        (∀ d ∈ store, d._id ≠ strLower jid) →
      update_job jid u store = (.error ⟨404, "Job not found"⟩, store)) := by
  constructor
  · intro h1 h2
    simp [update_job, h1, h2]
  · intro h1 h2 h3
    have hany : store.any (fun d => d._id == strLower jid) = false := by
      rw [List.any_eq_false]
      intro d hd
      simp [h3 d hd]
    simp [update_job, h1, h2, hany]

/-- Witness for C5's amended theorem: both error paths at concrete
inputs. -/
theorem update_job_error_paths_witness :
    update_job "aaaaaaaaaaaaaaaaaaaaaaaa" {} []
        = (.error ⟨400, "No valid fields to update"⟩, [])
    ∧ update_job "cccccccccccccccccccccccc" { status := some "applied" } [sampleDoc]
        = (.error ⟨404, "Job not found"⟩, [sampleDoc]) :=
  ⟨(update_job_error_paths "aaaaaaaaaaaaaaaaaaaaaaaa" {} []).1 (by decide) rfl,
   (update_job_error_paths "cccccccccccccccccccccccc"
      { status := some "applied" } [sampleDoc]).2 (by decide) rfl (by decide)⟩

/-- C7: the get-by-ID error taxonomy — an invalid identifier format is
400 "Invalid job ID format" regardless of the store's contents; a valid
format with no matching record is 404 "Job not found"; the 404 is
reachable only with a valid-format identifier; and with a valid format,
a matching record and its response shape, the handler returns exactly
that shape. -/
theorem get_job_error_taxonomy (jid : String) (store : List Doc) :
    (objectIdIsValid jid = false →
      get_job jid store = .error ⟨400, "Invalid job ID format"⟩)
    ∧ (objectIdIsValid jid = true → (∀ d ∈ store, d._id ≠ strLower jid) →
        get_job jid store = .error ⟨404, "Job not found"⟩)
    ∧ (get_job jid store = .error ⟨404, "Job not found"⟩ →
        objectIdIsValid jid = true)
    ∧ (∀ d r, objectIdIsValid jid = true →
        store.find? (fun x => x._id == strLower jid) = some d →
        job_helper d = some r → get_job jid store = .ok r) := by
  refine ⟨?_, ?_, ?_, ?_⟩
  · intro h
    simp [get_job, h]
  · intro h1 h2
    have hf : store.find? (fun d => d._id == strLower jid) = none :=
      List.find?_eq_none.mpr (fun d hd => by simp [h2 d hd])
    simp [get_job, h1, hf]
  · intro h
    cases hv : objectIdIsValid jid
    · simp [get_job, hv] at h
    · rfl
  · intro d r h1 h2 h3
    simp [get_job, h1, h2, h3]

/-- Witness for C7: each branch of the taxonomy at concrete inputs. -/
theorem get_job_error_taxonomy_witness :
    get_job "zz" [sampleDoc] = .error ⟨400, "Invalid job ID format"⟩
    ∧ get_job "cccccccccccccccccccccccc" [sampleDoc] = .error ⟨404, "Job not found"⟩
    ∧ objectIdIsValid "cccccccccccccccccccccccc" = true
    ∧ get_job "aaaaaaaaaaaaaaaaaaaaaaaa" [sampleDoc]
        = .ok { id := "aaaaaaaaaaaaaaaaaaaaaaaa", title := some "ab",
                company := some "cd", location := none, url := some "u1",
                platform := some "p1", description := none,
                status := some "saved", notes := none,
                date_saved := some (isoformat 5) } :=
  ⟨(get_job_error_taxonomy "zz" [sampleDoc]).1 rfl,
   (get_job_error_taxonomy "cccccccccccccccccccccccc" [sampleDoc]).2.1 rfl (by decide),
   (get_job_error_taxonomy "cccccccccccccccccccccccc" [sampleDoc]).2.2.1
     ((get_job_error_taxonomy "cccccccccccccccccccccccc" [sampleDoc]).2.1 rfl (by decide)),
   (get_job_error_taxonomy "aaaaaaaaaaaaaaaaaaaaaaaa" [sampleDoc]).2.2.2
     sampleDoc _ rfl rfl rfl⟩

/-- The document fields an update can never change. -/
def frameEq (d d' : Doc) : Prop :=
  d'._id = d._id ∧ d'.url = d.url ∧ d'.platform = d.platform
    ∧ d'.date_saved = d.date_saved ∧ d'.description = d.description

theorem frameEq_refl (d : Doc) : frameEq d d := ⟨rfl, rfl, rfl, rfl, rfl⟩

theorem frameEq_applySet (u : JobUpdate) (d : Doc) : frameEq d (applySet u d) :=
  ⟨rfl, rfl, rfl, rfl, rfl⟩

theorem updateFirst_frame (p : Doc → Bool) (u : JobUpdate) (store : List Doc) :
    List.Forall₂ frameEq store (updateFirst p (applySet u) store) := by
  induction store with
  | nil => exact List.Forall₂.nil
  | cons d ds ih =>
    simp only [updateFirst]
    split
    · exact List.Forall₂.cons (frameEq_applySet u d)
        (List.forall₂_same.mpr fun x _ => frameEq_refl x)
    · exact List.Forall₂.cons (frameEq_refl d) ih

/-- C4: any successful update relates the collection before and after
pointwise by `frameEq`: every document keeps its identifier, `url`,
`platform`, `date_saved` and `description`, so only fields in
{title, company, location, status, notes} can differ. -/
theorem update_job_frame (jid : String) (u : JobUpdate) (store : List Doc)
    (r : Resp) (store' : List Doc)
    (h : update_job jid u store = (.ok r, store')) :
    List.Forall₂ frameEq store store' := by
  simp only [update_job] at h
  split at h
  · simp at h
  · split at h
    · simp at h
    · split at h
      · split at h
        · split at h
          · rw [Prod.mk.injEq] at h
            rw [← h.2]
            exact updateFirst_frame _ u store
          · simp at h
        · simp at h
      · simp at h

/-- Witness for C4: a concrete successful status update changes only the
`status` field. -/
theorem update_job_frame_witness :
    List.Forall₂ frameEq [sampleDoc] [{ sampleDoc with status := .dval "applied" }] :=
  update_job_frame "aaaaaaaaaaaaaaaaaaaaaaaa" { status := some "applied" } [sampleDoc]
    { id := "aaaaaaaaaaaaaaaaaaaaaaaa", title := some "ab", company := some "cd",
      location := none, url := some "u1", platform := some "p1",
      description := none, status := some "applied", notes := none,
      date_saved := some (isoformat 5) }
    [{ sampleDoc with status := .dval "applied" }] rfl

theorem ofOpt_bracket (o : Option String) : (ofOpt o).bracket = some o := by
  cases o <;> rfl

theorem ofOpt_getOpt (o : Option String) : (ofOpt o).getOpt = o := by
  cases o <;> rfl

/-- The document inserted by `create_job` always formats successfully:
its response shape echoes the request fields, with the assigned
identifier, the default/supplied status, and the stamped timestamp. -/
theorem job_helper_toDoc (newId : String) (now : Nat) (job : JobCreate) :
    job_helper (toDoc newId now job) = some {
      id := newId, title := job.title, company := job.company,
      location := job.location, url := job.url, platform := job.platform,
      description := job.description, status := some job.status,
      notes := job.notes, date_saved := some (isoformat now) } := by
  simp only [job_helper, toDoc, ofOpt_bracket, ofOpt_getOpt, Option.some_bind]
  simp [DField.bracket, DField.getOpt]

/-- C9: after a successful create (fresh, valid, canonical store-assigned
identifier), an immediate get-by-ID with the identifier returned by the
create succeeds and returns the identical response shape. -/
theorem create_then_get_roundtrip (newId : String) (now : Nat) (job : JobCreate)
    (store : List Doc) (r : Resp) (store' : List Doc)
    (hv : objectIdIsValid newId = true)
    (hcanon : strLower newId = newId)
    (hfresh : ∀ d ∈ store, d._id ≠ newId)
    (h : create_job newId now job store = (.ok r, store')) :
    get_job newId store' = .ok r := by
  have hnone : store.find? (fun x => x._id == newId) = none :=
    List.find?_eq_none.mpr (fun d hd => by simp [hfresh d hd])
  have hfind : (store ++ [toDoc newId now job]).find? (fun x => x._id == newId)
      = some (toDoc newId now job) := by
    rw [List.find?_append, hnone]
    simp [List.find?, toDoc]
  simp only [create_job] at h
  split at h
  · simp at h
  · simp only [hfind, job_helper_toDoc] at h
    rw [Prod.mk.injEq] at h
    obtain ⟨h1, h2⟩ := h
    rw [Except.ok.injEq] at h1
    subst h1
    subst h2
    simp [get_job, hv, hcanon, hfind, job_helper_toDoc]

/-- Witness for C9: one concrete create followed by the get it
round-trips with. -/
theorem create_then_get_roundtrip_witness :
    get_job "bbbbbbbbbbbbbbbbbbbbbbbb"
        [sampleDoc, toDoc "bbbbbbbbbbbbbbbbbbbbbbbb" 7 { url := some "u2" }]
      = .ok { id := "bbbbbbbbbbbbbbbbbbbbbbbb", title := none, company := none,
              location := none, url := some "u2", platform := none,
              description := none, status := some "saved", notes := none,
              date_saved := some (isoformat 7) } :=
  create_then_get_roundtrip "bbbbbbbbbbbbbbbbbbbbbbbb" 7 { url := some "u2" }
    [sampleDoc] _ _ (by decide) (by decide) (by decide) rfl

theorem patMatchHead_no_dot :
    ∀ (q : List Char), '.' ∉ q → ∀ (s : List Char),
      patMatchHead q s = ciMatchHead q s
  | [], _, _ => rfl
  | _ :: _, _, [] => rfl
  | p :: ps, hq, c :: cs => by
    have hp : (p == '.') = false := by
      have hne : p ≠ '.' := fun he => hq (he ▸ List.mem_cons_self p ps)
      simp [hne]
    show ((p == '.' || p.toLower == c.toLower) && patMatchHead ps cs)
        = ((p.toLower == c.toLower) && ciMatchHead ps cs)
    rw [hp, Bool.false_or,
      patMatchHead_no_dot ps (fun hm => hq (List.mem_cons_of_mem p hm)) cs]

theorem patFound_no_dot (q : List Char) (hq : '.' ∉ q) :
    ∀ (s : List Char), patFound q s = ciContains q s
  | [] => patMatchHead_no_dot q hq []
  | c :: cs => by
    show (patMatchHead q (c :: cs) || patFound q cs)
        = (ciMatchHead q (c :: cs) || ciContains q cs)
    rw [patMatchHead_no_dot q hq (c :: cs), patFound_no_dot q hq cs]

/-- On queries free of regex metacharacters, the `$regex` search filter
coincides with plain case-insensitive substring matching. -/
theorem searchFilterMatch_no_meta (query : String)
    (hq : ∀ c ∈ query.toList, c ∉ regexMetachars) (d : Doc) :
    searchFilterMatch query d = substrFilterMatch query d := by
  have hdot : '.' ∉ query.data := fun hm => hq '.' hm (by decide)
  cases ht : d.title <;> cases hc : d.company <;>
    simp [searchFilterMatch, substrFilterMatch, regexClause, ht, hc,
      patFound_no_dot query.data hdot]

/-- C2 counterexample: with the query "." (a regex metacharacter), search
returns the stored record with title "ab" and company "cd", although "."
is not a substring of either field — so search does not implement plain
substring semantics for all queries. -/
theorem search_jobs_regex_counterexample :
    sampleDoc ∈ search_jobs "." 20 [sampleDoc]
    ∧ substrFilterMatch "." sampleDoc = false := by
  constructor
  · have hred : search_jobs "." 20 [sampleDoc] = [sampleDoc] := rfl
    rw [hred]
    exact List.mem_singleton.mpr rfl
  · rfl

/-- C2 amended: for queries containing no regex metacharacter, the search
result is exactly the case-insensitive substring matches on `title` or
`company`, ordered by `date_saved` descending and truncated to `limit`;
in particular, when no truncation occurs, a stored record is in the
result iff its title or company contains the query.  (For queries
containing metacharacters the query acts as a case-insensitive regex
pattern, not a literal substring.) -/
theorem search_jobs_literal_query_semantics (query : String) (limit : Nat)
    (store : List Doc)
    (hq : ∀ c ∈ query.toList, c ∉ regexMetachars) :
    search_jobs query limit store
        = (sortByDateDesc (store.filter (substrFilterMatch query))).take limit
    ∧ List.Sorted dateGE (search_jobs query limit store)
    ∧ ((store.filter (substrFilterMatch query)).length ≤ limit →
        ∀ d ∈ store,
          (d ∈ search_jobs query limit store ↔ substrFilterMatch query d = true)) := by
  have hfun : searchFilterMatch query = substrFilterMatch query := by
    funext d
    exact searchFilterMatch_no_meta query hq d
  refine ⟨?_, ?_, ?_⟩
  · rw [search_jobs, hfun]
  · rw [search_jobs, sortByDateDesc]
    exact (List.sorted_insertionSort dateGE _).sublist (List.take_sublist _ _)
  · intro hlen d hd
    rw [search_jobs, hfun, sortByDateDesc]
    have hperm := List.perm_insertionSort dateGE (store.filter (substrFilterMatch query))
    have hlen2 :
        ((store.filter (substrFilterMatch query)).insertionSort dateGE).length ≤ limit := by
      rw [hperm.length_eq]
      exact hlen
    rw [List.take_of_length_le hlen2, hperm.mem_iff, List.mem_filter]
    simp [hd]

/-- Witness for C2's amended theorem at a metacharacter-free query. -/
theorem search_jobs_literal_query_semantics_witness :
    search_jobs "AB" 20 [sampleDoc]
        = (sortByDateDesc ([sampleDoc].filter (substrFilterMatch "AB"))).take 20
    ∧ List.Sorted dateGE (search_jobs "AB" 20 [sampleDoc])
    ∧ (([sampleDoc].filter (substrFilterMatch "AB")).length ≤ 20 →
        ∀ d ∈ [sampleDoc],
          (d ∈ search_jobs "AB" 20 [sampleDoc] ↔ substrFilterMatch "AB" d = true)) :=
  search_jobs_literal_query_semantics "AB" 20 [sampleDoc] (by decide)

/-- Equality-filter semantics following the specification's words: each
of `status`/`platform` applies whenever it is supplied. -/
def specListMatch (status platform : Option String) (d : Doc) : Bool :=
  (match status with
   | none => true
   | some s => fieldEq s d.status) &&
  (match platform with
   | none => true
   | some s => fieldEq s d.platform)

/-- For non-empty supplied filters, the handler's truthiness-built filter
agrees with the specification's equality filter. -/
theorem listFilterMatch_eq_spec (status platform : Option String)
    (hs : status ≠ some "") (hp : platform ≠ some "") :
    listFilterMatch status platform = specListMatch status platform := by
  have h1 : effFilter status = status := by
    cases status with
    | none => rfl
    | some s =>
      have hne : s ≠ "" := fun he => hs (by rw [he])
      simp [effFilter, hne]
  have h2 : effFilter platform = platform := by
    cases platform with
    | none => rfl
    | some s =>
      have hne : s ≠ "" := fun he => hp (by rw [he])
      simp [effFilter, hne]
  funext d
  simp only [listFilterMatch, specListMatch, h1, h2]

/-- C6 counterexample: with the `status` filter supplied as the empty
string, the handler returns a record whose stored status is `"saved"`,
not the (empty) set of records whose status equals `""` — the claim's
equality semantics fails for supplied-but-empty filters. -/
theorem get_jobs_empty_filter_counterexample :
    get_jobs (some "") none 50 0 [sampleDoc] = [sampleDoc]
    ∧ sampleDoc.status ≠ .dval "" := ⟨rfl, by decide⟩

/-- C6 amended: for every list request whose supplied filters are
non-empty strings, the result is exactly the records passing the
equality filters (a filter applies only when supplied; none means all
records), ordered by `date_saved` descending, with `skip` dropped then
at most `limit` kept; a filter supplied as the empty string is instead
treated as absent. -/
theorem get_jobs_filter_semantics (status platform : Option String)
    (limit skip : Nat) (store : List Doc)
    (hs : status ≠ some "") (hp : platform ≠ some "") :
    get_jobs status platform limit skip store
        = ((sortByDateDesc (store.filter (specListMatch status platform))).drop skip).take limit
    ∧ List.Sorted dateGE (get_jobs status platform limit skip store)
    ∧ ∀ d ∈ get_jobs status platform limit skip store,
        d ∈ store ∧ specListMatch status platform d = true := by
  have hfun := listFilterMatch_eq_spec status platform hs hp
  refine ⟨?_, ?_, ?_⟩
  · rw [get_jobs, hfun]
  · rw [get_jobs, sortByDateDesc]
    exact (List.sorted_insertionSort dateGE _).sublist
      ((List.take_sublist _ _).trans (List.drop_sublist _ _))
  · intro d hd
    rw [get_jobs, hfun, sortByDateDesc] at hd
    have hd2 : d ∈ (store.filter (specListMatch status platform)).insertionSort dateGE :=
      ((List.take_sublist _ _).trans (List.drop_sublist _ _)).subset hd
    have hd3 := (List.perm_insertionSort dateGE _).mem_iff.mp hd2
    exact List.mem_filter.mp hd3

/-- Witness for C6's amended theorem at a concrete status filter. -/
theorem get_jobs_filter_semantics_witness :
    get_jobs (some "saved") none 50 0 [sampleDoc]
        = ((sortByDateDesc ([sampleDoc].filter (specListMatch (some "saved") none))).drop 0).take 50
    ∧ List.Sorted dateGE (get_jobs (some "saved") none 50 0 [sampleDoc])
    ∧ ∀ d ∈ get_jobs (some "saved") none 50 0 [sampleDoc],
        d ∈ [sampleDoc] ∧ specListMatch (some "saved") none d = true :=
  get_jobs_filter_semantics (some "saved") none 50 0 [sampleDoc]
    (by decide) (by decide)

end JobTracker
